import Mathlib

/-!
Verification of the cpal audio-output facade (`src/lib.rs`).

The facade in `src/lib.rs` is embedded directly.  The platform backend
(module `cpal_impl`: the types `cpal_impl::Buffer`, `cpal_impl::Voice`,
`cpal_impl::SamplesStream`, `cpal_impl::Endpoint`, `cpal_impl::EventLoop`)
and the `samples_formats` module are not part of the provided source; they
are modelled from the specification's backend capability contract (spec
sections 3, 4.4, 4.5, 6) and clearly marked as such.

Rust panics (`unwrap` on `None`, explicit `panic!`) are modelled with
`Option`/dedicated outcome types: `none` / a `panicked` constructor means
the operation aborts.  Machine integers are `Nat` with an explicit
`% 2 ^ w` at the one place the source performs a narrowing cast.
-/

namespace Cpal

/-- Possible position of a channel (`enum ChannelPosition`, src/lib.rs:127-147). -/
inductive ChannelPosition where
  | FrontLeft
  | FrontRight
  | FrontCenter
  | LowFrequency
  | BackLeft
  | BackRight
  | FrontLeftOfCenter
  | FrontRightOfCenter
  | BackCenter
  | SideLeft
  | SideRight
  | TopCenter
  | TopFrontLeft
  | TopFrontCenter
  | TopFrontRight
  | TopBackLeft
  | TopBackCenter
  | TopBackRight
deriving DecidableEq, Repr

/-- Source `pub struct SamplesRate(pub u32)` (src/lib.rs:150-151).  The `u32` payload
is a natural number; no arithmetic overflowing 32 bits occurs anywhere. -/
structure SamplesRate where
  val : Nat
deriving DecidableEq, Repr

/-- Modelled from the spec: `SampleFormat` comes from the `samples_formats`
module, which is not under src/.  Spec section 3: `data_type: one of
{U16, I16, F32}`. -/
inductive SampleFormat where
  | U16
  | I16
  | F32
deriving DecidableEq, Repr

/-- Source `pub struct Format` (src/lib.rs:154-159). -/
structure Format where
  channels : List ChannelPosition
  samples_rate : SamplesRate
  data_type : SampleFormat
deriving DecidableEq, Repr

/-- The Format invariant of spec section 3: non-empty channel list, rate > 0. -/
def FormatValid (f : Format) : Prop :=
  f.channels ≠ [] ∧ 0 < f.samples_rate.val

instance (f : Format) : Decidable (FormatValid f) := by
  unfold FormatValid; exact inferInstance

/-- Sample values of Rust type `u16`. -/
abbrev u16 := Fin 65536

/-- Sample values of Rust type `i16`.  Only carried around, never computed
with, so the 16-bit range is irrelevant. -/
abbrev i16 := Int

/-- Sample values of Rust type `f32`, represented by their IEEE-754 bit
pattern.  No floating-point arithmetic is ever performed on them. -/
structure f32 where
  bits : Nat
deriving DecidableEq, Repr

instance : Inhabited f32 := ⟨⟨0⟩⟩

/-- Modelled from the spec: `cpal_impl::Buffer<T>`, the backend buffer held
inside `Buffer<T>` (not under src/).  Spec section 6: the backend can, per
cycle, acquire a buffer reporting its true available length, and commit a
released buffer's contents to the device.  `seq` is the fill-order tag of the
cycle that produced the buffer (spec section 8), `data` the exposed region. -/
structure ImplBuffer (T : Type) where
  seq : Nat
  data : List T
deriving DecidableEq, Repr

/-- Backend buffer length (`cpal_impl::Buffer::len`, modelled from the spec:
the buffer reports its true available length). -/
def ImplBuffer.len {T : Type} (b : ImplBuffer T) : Nat :=
  b.data.length

/-- Backend write access (`cpal_impl::Buffer::get_buffer`, modelled from the
spec: exposes the contiguous region of `T`). -/
def ImplBuffer.get_buffer {T : Type} (b : ImplBuffer T) : List T :=
  b.data

/-- Modelled from the spec: `cpal_impl::Buffer::finish` commits the buffer to
the device (spec: "commit a released buffer's contents to the device").  The
device-side effect is recorded as one commit event added to a running count. -/
def ImplBuffer.finish {T : Type} (_ : ImplBuffer T) (commits : Nat) : Nat :=
  commits + 1

/-- Source `pub struct Buffer<T>` (src/lib.rs:196-200): wraps
`target: Option<cpal_impl::Buffer<T>>`; the option is taken by `Drop`. -/
structure Buffer (T : Type) where
  target : Option (ImplBuffer T)
deriving DecidableEq, Repr

/-- Outcome of an immutable deref of `Buffer<T>`: either a Rust panic with
its message, or a value.  The Rust signature has no error channel. -/
inductive DerefOutcome (T : Type) where
  | panicked (msg : String)
  | ok (v : List T)
deriving DecidableEq

/-- Source `impl Deref for Buffer<T>` (src/lib.rs:392-399): the body is
unconditionally `panic!("It is forbidden to read from the audio buffer")`. -/
def Buffer.deref {T : Type} (_ : Buffer T) : DerefOutcome T :=
  .panicked "It is forbidden to read from the audio buffer"

/-- Source `impl DerefMut for Buffer<T>` (src/lib.rs:401-406):
`self.target.as_mut().unwrap().get_buffer()`.  `none` is the panic of the
`unwrap`; the buffer itself is not consumed and no commit happens. -/
def Buffer.deref_mut {T : Type} (b : Buffer T) : Option (List T) :=
  b.target.map fun t => t.get_buffer

/-- Source `impl Drop for Buffer<T>` (src/lib.rs:408-413):
`self.target.take().unwrap().finish()`.  `take` leaves `target = none`;
`none` here is the panic of the `unwrap`.  Returns the buffer after the take
together with the commit count after `finish`. -/
def Buffer.drop {T : Type} (b : Buffer T) (commits : Nat) :
    Option (Buffer T × Nat) :=
  b.target.map fun t => (⟨none⟩, t.finish commits)

/-- A consumer performing `n` write accesses (`deref_mut`) to the buffer,
threading the commit count.  Aborts (`none`) only if an `unwrap` panics. -/
def Buffer.runWrites {T : Type} (b : Buffer T) (commits : Nat) :
    Nat → Option (Buffer T × Nat)
  | 0 => some (b, commits)
  | n + 1 =>
    match b.deref_mut with
    | none => none
    | some _ => Buffer.runWrites b commits n

/-- One full fill cycle on the consumer side: `n` write accesses, then the
handle is released (`drop` runs).  Exiting after only `n` of an intended
larger number of writes — an early abort — is the same computation with the
smaller `n`, since `drop` runs on every exit path.  Result: the final commit
count, starting from zero. -/
def Buffer.runCycle {T : Type} (b : Buffer T) (n : Nat) : Option Nat :=
  (Buffer.runWrites b 0 n).bind fun p => (Buffer.drop p.1 p.2).map Prod.snd

/-- Source `pub enum UnknownTypeBuffer` (src/lib.rs:205-212): tagged union over
`Buffer<u16>`, `Buffer<i16>`, `Buffer<f32>`. -/
inductive UnknownTypeBuffer where
  | U16 (buf : Buffer u16)
  | I16 (buf : Buffer i16)
  | F32 (buf : Buffer f32)
deriving DecidableEq

/-- Source `UnknownTypeBuffer::len` (src/lib.rs:214-224): in each branch
`buf.target.as_ref().unwrap().len()`.  `none` is the panic of the `unwrap`. -/
def UnknownTypeBuffer.len : UnknownTypeBuffer → Option Nat
  | .U16 buf => buf.target.map ImplBuffer.len
  | .I16 buf => buf.target.map ImplBuffer.len
  | .F32 buf => buf.target.map ImplBuffer.len

/-- The union branch (runtime tag) of an `UnknownTypeBuffer`. -/
def UnknownTypeBuffer.sampleFormat : UnknownTypeBuffer → SampleFormat
  | .U16 _ => .U16
  | .I16 _ => .I16
  | .F32 _ => .F32

/-- Fill-order tag of the backend buffer inside an `UnknownTypeBuffer`
(`none` when the inner option was already taken). -/
def UnknownTypeBuffer.seq : UnknownTypeBuffer → Option Nat
  | .U16 buf => buf.target.map ImplBuffer.seq
  | .I16 buf => buf.target.map ImplBuffer.seq
  | .F32 buf => buf.target.map ImplBuffer.seq

/-- Source `futures::Poll<Option<Item>, Error>` as used by `impl Stream for
SamplesStream` (src/lib.rs:377-390): not ready, ready with an optional item
(`none` = end of stream), or a stream error. -/
inductive PollResult (ι : Type) (ε : Type) where
  | notReady
  | ready (item : Option ι)
  | err (e : ε)
deriving DecidableEq

/-- Modelled from the spec: the backend builds, per fill cycle, the buffer of
the union branch matching the voice's `data_type` (spec section 4.4: "the
stream never delivers a mismatched branch"), carrying the cycle's fill-order
tag and a region of the backend-determined length. -/
def mkCycleBuffer (d : SampleFormat) (seq len : Nat) : UnknownTypeBuffer :=
  match d with
  | .U16 => .U16 ⟨some ⟨seq, List.replicate len default⟩⟩
  | .I16 => .I16 ⟨some ⟨seq, List.replicate len default⟩⟩
  | .F32 => .F32 ⟨some ⟨seq, List.replicate len default⟩⟩

/-- Modelled from the spec: `cpal_impl::SamplesStream`, the per-voice backend
stream (not under src/).  `data_type` is the tag fixed per voice at
construction (spec section 3); `lens` are the backend-determined lengths of
the fill cycles currently ready, oldest first (spec section 4.4); `next_seq`
is the fill-order tag of the next cycle to deliver (spec section 8). -/
structure ImplSamplesStream where
  data_type : SampleFormat
  lens : List Nat
  next_seq : Nat
deriving DecidableEq

/-- Modelled from the spec: backend stream poll (spec section 4.5): if no
buffer is ready the stream yields `notReady` (registering a wake-up);
otherwise it delivers the oldest ready fill cycle.  Delivery is never an
`err` (spec section 7: a short buffer is normal behaviour, not an error). -/
def ImplSamplesStream.poll (s : ImplSamplesStream) :
    PollResult UnknownTypeBuffer Unit × ImplSamplesStream :=
  match s.lens with
  | [] => (.notReady, s)
  | l :: rest =>
    (.ready (some (mkCycleBuffer s.data_type s.next_seq l)),
     ⟨s.data_type, rest, s.next_seq + 1⟩)

/-- Source `pub struct SamplesStream(cpal_impl::SamplesStream)` (src/lib.rs:375). -/
structure SamplesStream where
  inner : ImplSamplesStream
deriving DecidableEq

/-- Source `impl Stream for SamplesStream`, method `poll` (src/lib.rs:381-384):
delegates to the backend stream. -/
def SamplesStream.poll (s : SamplesStream) :
    PollResult UnknownTypeBuffer Unit × SamplesStream :=
  let (r, s2) := s.inner.poll
  (r, ⟨s2⟩)

/-- The results of the first `n` polls of a stream. -/
def SamplesStream.pollN (s : SamplesStream) :
    Nat → List (PollResult UnknownTypeBuffer Unit)
  | 0 => []
  | n + 1 =>
    let (r, s2) := s.poll
    r :: s2.pollN n

/-- The buffers delivered among the first `n` polls, in delivery order. -/
def SamplesStream.delivered (s : SamplesStream) (n : Nat) :
    List UnknownTypeBuffer :=
  (s.pollN n).filterMap fun r =>
    match r with
    | .ready (some u) => some u
    | _ => none

/-- Modelled from the spec: `cpal_impl::Voice`, the backend playback handle
(not under src/).  Spec section 3: a voice holds playback state in
{Paused, Playing}; spec section 5: play/pause only flip this flag. -/
structure ImplVoice where
  playing : Bool
deriving DecidableEq

/-- Modelled from the spec: backend `play` (spec section 4.3:
Paused|Playing → Playing, idempotent). -/
def ImplVoice.play (_ : ImplVoice) : ImplVoice :=
  ⟨true⟩

/-- Modelled from the spec: backend `pause` (spec section 4.3:
Playing|Paused → Paused, idempotent). -/
def ImplVoice.pause (_ : ImplVoice) : ImplVoice :=
  ⟨false⟩

/-- Source `enum FormatsEnumerationError` (src/lib.rs:227-232). -/
inductive FormatsEnumerationError where
  | DeviceNotAvailable
deriving DecidableEq, Repr

/-- Source `enum CreationError` (src/lib.rs:253-261). -/
inductive CreationError where
  | DeviceNotAvailable
  | FormatNotSupported
deriving DecidableEq, Repr

/-- Modelled from the spec: `cpal_impl::Endpoint`, the backend device handle
(not under src/).  `available` — whether the device is still present (spec
section 4.1); `formats` — the formats the backend advertises, each satisfying
the Format invariant (spec sections 3 and 6: a voice is constructed against a
validated Format); `cap` — the fixed size of the device's hardware buffer;
`avail` — the backend-determined available space in each fill cycle after the
first (spec section 4.4: length is backend-determined per cycle). -/
structure ImplEndpoint where
  available : Bool
  formats : List Format
  cap : Nat
  avail : List Nat
deriving DecidableEq

/-- Modelled from the spec: the lengths the backend delivers over successive
fill cycles of one voice.  The device's hardware buffer has fixed positive
size `max cap 1`; at the first cycle the buffer is empty, so its whole size
is available; later cycles expose whatever space has been freed — at least
one sample (a cycle is only signalled when space exists), at most the whole
buffer (spec section 8: every delivered buffer has length > 0 and at most any
previously observed maximum for that voice). -/
def mkLens (cap : Nat) (avail : List Nat) : List Nat :=
  (max cap 1) :: avail.map fun a => min (a + 1) (max cap 1)

/-- Modelled from the spec: backend supported-format enumeration (spec
section 4.1): fails with `DeviceNotAvailable` if the device vanished,
otherwise yields the formats the backend advertises, most preferred first. -/
def ImplEndpoint.get_supported_formats_list (e : ImplEndpoint) :
    Except FormatsEnumerationError (List Format) :=
  if e.available then .ok (e.formats.filter fun f => FormatValid f)
  else .error .DeviceNotAvailable

/-- Source `pub struct Endpoint(cpal_impl::Endpoint)` (src/lib.rs:104-105). -/
structure Endpoint where
  inner : ImplEndpoint
deriving DecidableEq

/-- Source `Endpoint::get_supported_formats_list` (src/lib.rs:110-114): delegates to
the backend (the facade's `SupportedFormatsIterator` wraps the backend
iterator; the yielded formats are the backend's, unchanged). -/
def Endpoint.get_supported_formats_list (e : Endpoint) :
    Except FormatsEnumerationError (List Format) :=
  e.inner.get_supported_formats_list

/-- Modelled from the spec: `cpal_impl::EventLoop` (not under src/): the
reactor driving all registered streams.  It carries no state that the
verified claims observe. -/
structure ImplEventLoop where
  deriving DecidableEq

/-- Source `pub struct EventLoop(cpal_impl::EventLoop)` (src/lib.rs:178). -/
structure EventLoop where
  inner : ImplEventLoop
deriving DecidableEq

/-- Modelled from the spec: `cpal_impl::Voice::new` (not under src/).  Spec
section 4.3: construction fails with `DeviceNotAvailable` if the endpoint
disappeared and with `FormatNotSupported` if the backend rejects the given
Format; the backend accepts exactly the validated formats it advertises
(spec section 6; section 8: a Format yielded by the supported list never
fails with `FormatNotSupported`).  On success the backend voice starts
paused and the backend stream is tagged with the format's `data_type`. -/
def ImplVoice.new (e : ImplEndpoint) (f : Format) (_ : ImplEventLoop) :
    Except CreationError (ImplVoice × ImplSamplesStream) :=
  if e.available then
    if f ∈ e.formats ∧ FormatValid f then
      .ok (⟨false⟩, ⟨f.data_type, mkLens e.cap e.avail, 0⟩)
    else .error .FormatNotSupported
  else .error .DeviceNotAvailable

/-- Source `pub struct Voice` (src/lib.rs:297-300). -/
structure Voice where
  voice : ImplVoice
  format : Format
deriving DecidableEq

/-- Source `Voice::new` (src/lib.rs:305-318): delegates to the backend constructor,
then stores a clone of the requested format in the facade `Voice`. -/
def Voice.new (endpoint : Endpoint) (format : Format) (event_loop : EventLoop) :
    Except CreationError (Voice × SamplesStream) :=
  match ImplVoice.new endpoint.inner format event_loop.inner with
  | .error e => .error e
  | .ok (voice, stream) => .ok (⟨voice, format⟩, ⟨stream⟩)

/-- Source `type ChannelsCount = u16` (src/lib.rs:124); `Voice::get_channels`
(src/lib.rs:331-333): `self.format().channels.len() as ChannelsCount` —
the `as u16` cast reduces modulo `2 ^ 16`. -/
def Voice.get_channels (v : Voice) : Nat :=
  v.format.channels.length % 2 ^ 16

/-- Source `Voice::get_samples_rate` (src/lib.rs:340-342). -/
def Voice.get_samples_rate (v : Voice) : SamplesRate :=
  v.format.samples_rate

/-- Source `Voice::get_samples_format` (src/lib.rs:349-351). -/
def Voice.get_samples_format (v : Voice) : SampleFormat :=
  v.format.data_type

/-- Source `Voice::play` (src/lib.rs:360-362): delegates to the backend voice; the
stored format is untouched. -/
def Voice.play (v : Voice) : Voice :=
  ⟨v.voice.play, v.format⟩

/-- Source `Voice::pause` (src/lib.rs:370-372): delegates to the backend voice; the
stored format is untouched. -/
def Voice.pause (v : Voice) : Voice :=
  ⟨v.voice.pause, v.format⟩

/-- Whether the inner option of the wrapped buffer is still present. -/
def UnknownTypeBuffer.live : UnknownTypeBuffer → Bool
  | .U16 buf => buf.target.isSome
  | .I16 buf => buf.target.isSome
  | .F32 buf => buf.target.isSome

section Fixtures

/-- A well-formed stereo format used as concrete test input. -/
def okFormat : Format :=
  ⟨[.FrontLeft, .FrontRight], ⟨44100⟩, .F32⟩

/-- A format violating the invariant: no channels, zero rate. -/
def badFormat : Format :=
  ⟨[], ⟨0⟩, .U16⟩

/-- A live endpoint advertising `okFormat`, with hardware buffer size 4 and
two further fill cycles with 0 and 5 samples of freed space. -/
def okEndpoint : Endpoint :=
  ⟨⟨true, [okFormat], 4, [0, 5]⟩⟩

/-- An endpoint whose device has disappeared. -/
def deadEndpoint : Endpoint :=
  ⟨⟨false, [okFormat], 4, [0, 5]⟩⟩

/-- The event loop used by the concrete test inputs. -/
def theLoop : EventLoop :=
  ⟨⟨⟩⟩

/-- A concrete live backend buffer of two `u16` samples. -/
def implBufW : ImplBuffer u16 :=
  ⟨0, [⟨0, by decide⟩, ⟨0, by decide⟩]⟩

/-- A concrete live `Buffer<u16>` handle wrapping `implBufW`. -/
def bufW : Buffer u16 :=
  ⟨some implBufW⟩

end Fixtures

section HelperLemmas

theorem runWrites_of_live {T : Type} {b : Buffer T} {t : ImplBuffer T}
    (h : b.target = some t) (c : Nat) :
    ∀ n, Buffer.runWrites b c n = some (b, c) := by
  intro n
  induction n with
  | zero => rfl
  | succ n ih => simp only [Buffer.runWrites, Buffer.deref_mut, h, Option.map_some]; exact ih

theorem mkCycleBuffer_sampleFormat (d : SampleFormat) (s l : Nat) :
    (mkCycleBuffer d s l).sampleFormat = d := by
  cases d <;> rfl

theorem mkCycleBuffer_seq (d : SampleFormat) (s l : Nat) :
    (mkCycleBuffer d s l).seq = some s := by
  cases d <;> rfl

theorem mkCycleBuffer_len (d : SampleFormat) (s l : Nat) :
    (mkCycleBuffer d s l).len = some l := by
  cases d <;> simp [mkCycleBuffer, UnknownTypeBuffer.len, ImplBuffer.len]

theorem mkCycleBuffer_live (d : SampleFormat) (s l : Nat) :
    (mkCycleBuffer d s l).live = true := by
  cases d <;> rfl

/-- The buffers a stream delivers, computed directly from the backend stream
state: one buffer per ready fill cycle, tags counting up from `seq`. -/
def deliveredSpec (d : SampleFormat) : List Nat → Nat → List UnknownTypeBuffer
  | [], _ => []
  | l :: rest, seq => mkCycleBuffer d seq l :: deliveredSpec d rest (seq + 1)

theorem pollN_nil_lens (d : SampleFormat) (seq : Nat) :
    ∀ n, (⟨⟨d, [], seq⟩⟩ : SamplesStream).pollN n
      = List.replicate n PollResult.notReady := by
  intro n
  induction n with
  | zero => rfl
  | succ n ih =>
    simp only [SamplesStream.pollN, SamplesStream.poll, ImplSamplesStream.poll,
               List.replicate]
    exact congrArg _ ih

theorem delivered_nil_lens (d : SampleFormat) (seq : Nat) (n : Nat) :
    (⟨⟨d, [], seq⟩⟩ : SamplesStream).delivered n = [] := by
  simp only [SamplesStream.delivered, pollN_nil_lens]
  induction n with
  | zero => rfl
  | succ n ih => simp [List.replicate, List.filterMap_cons, ih]

theorem delivered_cons_lens (d : SampleFormat) (seq l : Nat) (rest : List Nat)
    (n : Nat) :
    (⟨⟨d, l :: rest, seq⟩⟩ : SamplesStream).delivered (n + 1)
      = mkCycleBuffer d seq l
          :: (⟨⟨d, rest, seq + 1⟩⟩ : SamplesStream).delivered n := by
  simp [SamplesStream.delivered, SamplesStream.pollN, SamplesStream.poll,
        ImplSamplesStream.poll, List.filterMap_cons]

theorem delivered_eq_spec :
    ∀ (n : Nat) (s : SamplesStream),
      s.delivered n
        = deliveredSpec s.inner.data_type (s.inner.lens.take n) s.inner.next_seq := by
  intro n
  induction n with
  | zero => intro s; rfl
  | succ n ih =>
    intro s
    obtain ⟨⟨d, lens, seq⟩⟩ := s
    cases lens with
    | nil => simpa [deliveredSpec] using delivered_nil_lens d seq (n + 1)
    | cons l rest =>
      rw [delivered_cons_lens, ih ⟨⟨d, rest, seq + 1⟩⟩]
      rfl

theorem deliveredSpec_forall_sampleFormat (d : SampleFormat) :
    ∀ (lens : List Nat) (seq : Nat) (u : UnknownTypeBuffer),
      u ∈ deliveredSpec d lens seq → u.sampleFormat = d := by
  intro lens
  induction lens with
  | nil => intro seq u hu; simp [deliveredSpec] at hu
  | cons l rest ih =>
    intro seq u hu
    simp only [deliveredSpec, List.mem_cons] at hu
    rcases hu with h | h
    · subst h; exact mkCycleBuffer_sampleFormat d seq l
    · exact ih (seq + 1) u h

theorem deliveredSpec_seqs (d : SampleFormat) :
    ∀ (lens : List Nat) (seq : Nat),
      (deliveredSpec d lens seq).filterMap UnknownTypeBuffer.seq
        = List.range' seq lens.length := by
  intro lens
  induction lens with
  | nil => intro seq; rfl
  | cons l rest ih =>
    intro seq
    simp only [deliveredSpec, List.filterMap_cons, mkCycleBuffer_seq,
               List.length_cons, List.range'_succ]
    rw [ih (seq + 1)]

theorem deliveredSpec_lens (d : SampleFormat) :
    ∀ (lens : List Nat) (seq : Nat),
      (deliveredSpec d lens seq).filterMap UnknownTypeBuffer.len = lens := by
  intro lens
  induction lens with
  | nil => intro seq; rfl
  | cons l rest ih =>
    intro seq
    simp only [deliveredSpec, List.filterMap_cons, mkCycleBuffer_len]
    rw [ih (seq + 1)]

end HelperLemmas

/-- The lengths reported by the buffers a stream delivers within `n` polls. -/
def SamplesStream.deliveredLens (s : SamplesStream) (n : Nat) : List Nat :=
  (s.delivered n).filterMap UnknownTypeBuffer.len

/-- An event-loop schedule over two voices: for each entry, the scheduled
voice's stream is polled; a delivered buffer is appended to the global
observation, tagged with which voice it belongs to.  Spec section 4.5: the
loop drives all registered streams; the schedule captures the order in which
fill cycles of different voices complete. -/
def interleavePolls : List Bool → SamplesStream → SamplesStream →
    List (Bool × UnknownTypeBuffer)
  | [], _, _ => []
  | side :: rest, s1, s2 =>
    if side then
      match s1.poll with
      | (.ready (some u), s1') => (true, u) :: interleavePolls rest s1' s2
      | (_, s1') => interleavePolls rest s1' s2
    else
      match s2.poll with
      | (.ready (some u), s2') => (false, u) :: interleavePolls rest s1 s2'
      | (_, s2') => interleavePolls rest s1 s2'

section MoreFixtures

/-- A spec-legal format with 65536 channels — enough to overflow the `u16`
channel count. -/
def bigFormat : Format :=
  ⟨List.replicate 65536 .FrontLeft, ⟨44100⟩, .F32⟩

/-- A live endpoint advertising `bigFormat`. -/
def bigEndpoint : Endpoint :=
  ⟨⟨true, [bigFormat], 4, []⟩⟩

/-- The voice produced by `Voice.new okEndpoint okFormat theLoop`. -/
def vOk : Voice :=
  ⟨⟨false⟩, okFormat⟩

/-- The stream produced by `Voice.new okEndpoint okFormat theLoop`. -/
def sOk : SamplesStream :=
  ⟨⟨.F32, mkLens 4 [0, 5], 0⟩⟩

end MoreFixtures

section MoreHelperLemmas

theorem voiceNew_ok {endpoint : Endpoint} {format : Format}
    {event_loop : EventLoop} {v : Voice} {s : SamplesStream}
    (h : Voice.new endpoint format event_loop = .ok (v, s)) :
    v = ⟨⟨false⟩, format⟩ ∧
      s = ⟨⟨format.data_type, mkLens endpoint.inner.cap endpoint.inner.avail, 0⟩⟩ ∧
      endpoint.inner.available = true ∧
      format ∈ endpoint.inner.formats ∧ FormatValid format := by
  simp only [Voice.new, ImplVoice.new] at h
  by_cases ha : endpoint.inner.available
  · rw [if_pos ha] at h
    by_cases hf : format ∈ endpoint.inner.formats ∧ FormatValid format
    · rw [if_pos hf] at h
      simp only [Except.ok.injEq, Prod.mk.injEq] at h
      exact ⟨h.1.symm, h.2.symm, ha, hf.1, hf.2⟩
    · rw [if_neg hf] at h
      simp at h
  · rw [if_neg ha] at h
    simp at h

theorem implVoiceNew_accepts (e : Endpoint) (f : Format) (l : EventLoop)
    (ha : e.inner.available = true)
    (hf : f ∈ e.inner.formats ∧ FormatValid f) :
    ImplVoice.new e.inner f l.inner
      = .ok (⟨false⟩, ⟨f.data_type, mkLens e.inner.cap e.inner.avail, 0⟩) := by
  simp only [ImplVoice.new]
  rw [if_pos ha, if_pos hf]

theorem voiceNew_delegate (e : Endpoint) (f : Format) (l : EventLoop)
    (iv : ImplVoice) (is : ImplSamplesStream)
    (h : ImplVoice.new e.inner f l.inner = .ok (iv, is)) :
    Voice.new e f l = .ok (⟨iv, f⟩, ⟨is⟩) := by
  unfold Voice.new
  rw [h]

theorem get_channels_mk (iv : ImplVoice) (f : Format) :
    (⟨iv, f⟩ : Voice).get_channels = f.channels.length % 2 ^ 16 :=
  rfl

theorem mkLens_mem {cap : Nat} {avail : List Nat} {x : Nat}
    (hx : x ∈ mkLens cap avail) : 0 < x ∧ x ≤ max cap 1 := by
  simp only [mkLens, List.mem_cons, List.mem_map] at hx
  rcases hx with h | ⟨a, _, rfl⟩
  · subst h
    exact ⟨Nat.lt_of_lt_of_le Nat.zero_lt_one (Nat.le_max_right cap 1), Nat.le_refl _⟩
  · refine ⟨Nat.lt_min.2 ⟨Nat.succ_pos a, ?_⟩, Nat.min_le_right _ _⟩
    exact Nat.lt_of_lt_of_le Nat.zero_lt_one (Nat.le_max_right cap 1)

theorem pollN_no_err :
    ∀ (n : Nat) (s : SamplesStream) (e : Unit), PollResult.err e ∉ s.pollN n := by
  intro n
  induction n with
  | zero => intro s e h; simp [SamplesStream.pollN] at h
  | succ n ih =>
    intro s e h
    obtain ⟨⟨d, lens, seq⟩⟩ := s
    cases lens with
    | nil =>
      simp only [SamplesStream.pollN, SamplesStream.poll, ImplSamplesStream.poll,
                 List.mem_cons] at h
      rcases h with h | h
      · exact PollResult.noConfusion h
      · exact ih ⟨⟨d, [], seq⟩⟩ e h
    | cons l rest =>
      simp only [SamplesStream.pollN, SamplesStream.poll, ImplSamplesStream.poll,
                 List.mem_cons] at h
      rcases h with h | h
      · exact PollResult.noConfusion h
      · exact ih ⟨⟨d, rest, seq + 1⟩⟩ e h

theorem take_mkLens_bounds (cap : Nat) (avail : List Nat) (n i l : Nat)
    (hl : ((mkLens cap avail).take n)[i]? = some l) :
    0 < l ∧ (0 < i → l ≤ (((mkLens cap avail).take n).take i).foldr max 0) := by
  have hmem : l ∈ mkLens cap avail :=
    List.take_subset n _ (List.getElem?_mem hl)
  have hb := mkLens_mem hmem
  refine ⟨hb.1, fun hi => ?_⟩
  cases n with
  | zero => simp at hl
  | succ m =>
    cases i with
    | zero => exact absurd hi (Nat.lt_irrefl 0)
    | succ j =>
      simp only [mkLens, List.take_succ_cons, List.foldr_cons]
      exact Nat.le_trans hb.2 (Nat.le_max_left _ _)

end MoreHelperLemmas

section Claims

/-- C1: for every `Buffer<T>` delivered in a fill cycle (a live handle,
`target = some t`), running any consumer — `n` write accesses, covering every
exit path including an early abort after fewer writes than intended — leaves
the commit count at zero after the writes (a `deref_mut` never commits) and
the release of the handle (`Drop::drop` calling `finish`) makes the final
commit count exactly one. -/
theorem commit_exactly_once_at_release {T : Type} (b : Buffer T)
    (t : ImplBuffer T) (h : b.target = some t) (n : Nat) :
    Buffer.runWrites b 0 n = some (b, 0) ∧ Buffer.runCycle b n = some 1 := by
  refine ⟨runWrites_of_live h 0 n, ?_⟩
  simp [Buffer.runCycle, runWrites_of_live h 0 n, Buffer.drop, h, ImplBuffer.finish]

/-- Witness for C1: concrete `u16` buffer, three writes. -/
theorem commit_exactly_once_at_release_witness :
    Buffer.runWrites bufW 0 3 = some (bufW, 0) ∧ Buffer.runCycle bufW 3 = some 1 :=
  commit_exactly_once_at_release bufW implBufW rfl 3

/-- C2: for every `Buffer<T>`, the immutable deref panics with the fixed
message and never produces a value; its outcome type has no recoverable
error constructor, matching the Rust signature. -/
theorem deref_always_panics {T : Type} (b : Buffer T) :
    b.deref = .panicked "It is forbidden to read from the audio buffer" ∧
      ∀ v : List T, b.deref ≠ .ok v := by
  exact ⟨rfl, fun v h => by simp [Buffer.deref] at h⟩

/-- Witness for C2: the concrete live `u16` buffer. -/
theorem deref_always_panics_witness :
    Buffer.deref bufW = .panicked "It is forbidden to read from the audio buffer" ∧
      Buffer.deref bufW ≠ .ok [] :=
  ⟨(deref_always_panics bufW).1, (deref_always_panics bufW).2 []⟩

/-- C10: a `Buffer<T>` with `target = some t` (as every buffer built by the
backend is — `mkCycleBuffer` always starts live): the unwrap in `deref_mut`
succeeds, the unwrap in `UnknownTypeBuffer::len` succeeds for every live
wrapped buffer, and `drop`'s `take` hands the backend buffer to `finish`
exactly once — afterwards `target = none` and a second `drop` finds nothing
to commit. -/
theorem target_some_until_drop {T : Type} (b : Buffer T) (t : ImplBuffer T)
    (h : b.target = some t) (c : Nat) :
    b.deref_mut = some t.get_buffer ∧
      Buffer.drop b c = some (⟨none⟩, t.finish c) ∧
      Buffer.drop (⟨none⟩ : Buffer T) c = none ∧
      (∀ d s l, (mkCycleBuffer d s l).live = true) ∧
      (∀ u : UnknownTypeBuffer, u.live = true → u.len.isSome = true) := by
  refine ⟨by simp [Buffer.deref_mut, h], by simp [Buffer.drop, h], rfl,
          fun d s l => mkCycleBuffer_live d s l, ?_⟩
  intro u hu
  cases u with
  | U16 buf => cases hb : buf.target <;>
      simp_all [UnknownTypeBuffer.live, UnknownTypeBuffer.len]
  | I16 buf => cases hb : buf.target <;>
      simp_all [UnknownTypeBuffer.live, UnknownTypeBuffer.len]
  | F32 buf => cases hb : buf.target <;>
      simp_all [UnknownTypeBuffer.live, UnknownTypeBuffer.len]

/-- Witness for C10: the concrete live `u16` buffer. -/
theorem target_some_until_drop_witness :
    Buffer.deref_mut bufW = some implBufW.get_buffer ∧
      Buffer.drop bufW 0 = some (⟨none⟩, implBufW.finish 0) ∧
      Buffer.drop (⟨none⟩ : Buffer u16) 0 = none ∧
      (mkCycleBuffer .U16 0 2).live = true ∧
      (UnknownTypeBuffer.U16 bufW).len.isSome = true :=
  ⟨(target_some_until_drop bufW implBufW rfl 0).1,
   (target_some_until_drop bufW implBufW rfl 0).2.1,
   (target_some_until_drop bufW implBufW rfl 0).2.2.1,
   (target_some_until_drop bufW implBufW rfl 0).2.2.2.1 .U16 0 2,
   (target_some_until_drop bufW implBufW rfl 0).2.2.2.2
     (UnknownTypeBuffer.U16 bufW) rfl⟩

/-- C6: `play` and `pause` are idempotent transitions of the voice's playback
state: `play` maps both states to Playing, `pause` maps both states to
Paused, and a second consecutive `pause` (or `play`) leaves the voice —
state and format — exactly as one invocation does. -/
theorem play_pause_idempotent (v : Voice) :
    (v.play).voice.playing = true ∧
      ((v.pause).play).voice.playing = true ∧
      (v.pause).voice.playing = false ∧
      ((v.play).pause).voice.playing = false ∧
      v.play.play = v.play ∧
      v.pause.pause = v.pause := by
  exact ⟨rfl, rfl, rfl, rfl, rfl, rfl⟩

/-- Witness for C6: the concrete stereo voice. -/
theorem play_pause_idempotent_witness :
    (vOk.play).voice.playing = true ∧
      ((vOk.pause).play).voice.playing = true ∧
      (vOk.pause).voice.playing = false ∧
      ((vOk.play).pause).voice.playing = false ∧
      vOk.play.play = vOk.play ∧
      vOk.pause.pause = vOk.pause :=
  play_pause_idempotent vOk

/-- C3: every item a voice's stream delivers is an `UnknownTypeBuffer` whose
union branch matches the `data_type` of the Format the voice was constructed
with; a mismatched branch is never delivered. -/
theorem stream_branch_matches_format (endpoint : Endpoint) (format : Format)
    (event_loop : EventLoop) (v : Voice) (s : SamplesStream)
    (h : Voice.new endpoint format event_loop = .ok (v, s)) (n : Nat) :
    ∀ u ∈ s.delivered n, u.sampleFormat = format.data_type := by
  obtain ⟨_, hs, _⟩ := voiceNew_ok h
  subst hs
  intro u hu
  rw [delivered_eq_spec] at hu
  exact deliveredSpec_forall_sampleFormat _ _ _ u hu

/-- Witness for C3: the first buffer delivered for the concrete `F32` voice
carries the `F32` branch. -/
theorem stream_branch_matches_format_witness :
    (mkCycleBuffer .F32 0 4).sampleFormat = okFormat.data_type :=
  stream_branch_matches_format okEndpoint okFormat theLoop vOk sOk rfl 3
    (mkCycleBuffer .F32 0 4) (by decide)

/-- C4 counterexample: `get_channels` is the channel count cast to `u16`
(src/lib.rs:332), so a successfully constructed voice whose format has 65536
channels reports 0 channels, not 65536. -/
theorem get_channels_truncates :
    bigFormat.channels.length = 65536 ∧
      Voice.new bigEndpoint bigFormat theLoop
        = .ok (⟨⟨false⟩, bigFormat⟩,
               ⟨⟨bigFormat.data_type,
                 mkLens bigEndpoint.inner.cap bigEndpoint.inner.avail, 0⟩⟩) ∧
      (⟨⟨false⟩, bigFormat⟩ : Voice).get_channels = 0 := by
  have hlen : bigFormat.channels.length = 65536 :=
    List.length_replicate 65536 ChannelPosition.FrontLeft
  have hval : FormatValid bigFormat := by
    refine ⟨fun hnil => ?_, by decide⟩
    have h0 : bigFormat.channels.length = 0 := by rw [hnil]; rfl
    rw [hlen] at h0
    exact absurd h0 (by decide)
  refine ⟨hlen, ?_, ?_⟩
  · exact voiceNew_delegate bigEndpoint bigFormat theLoop _ _
      (implVoiceNew_accepts bigEndpoint bigFormat theLoop rfl
        ⟨List.mem_cons_self bigFormat [], hval⟩)
  · rw [get_channels_mk, hlen]
    decide

/-- C4 amended: for every successful `Voice::new`, the stored format equals
the argument, is untouched by `play` and `pause`, and `get_samples_rate` and
`get_samples_format` return its rate and data type; `get_channels` returns
the channel count reduced modulo `2 ^ 16` (the `as u16` cast), which equals
the channel count whenever the format has fewer than 65536 channels. -/
theorem voice_format_fixed_amended (endpoint : Endpoint) (format : Format)
    (event_loop : EventLoop) (v : Voice) (s : SamplesStream)
    (h : Voice.new endpoint format event_loop = .ok (v, s)) :
    v.format = format ∧
      (v.play).format = format ∧
      (v.pause).format = format ∧
      v.get_samples_rate = format.samples_rate ∧
      v.get_samples_format = format.data_type ∧
      v.get_channels = format.channels.length % 2 ^ 16 ∧
      (format.channels.length < 2 ^ 16 →
        v.get_channels = format.channels.length) := by
  obtain ⟨hv, _⟩ := voiceNew_ok h
  subst hv
  refine ⟨rfl, rfl, rfl, rfl, rfl, rfl, fun hlt => ?_⟩
  simpa [Voice.get_channels] using Nat.mod_eq_of_lt hlt

/-- Witness for C4: the concrete stereo voice. -/
theorem voice_format_fixed_amended_witness :
    vOk.format = okFormat ∧
      (vOk.play).format = okFormat ∧
      (vOk.pause).format = okFormat ∧
      vOk.get_samples_rate = okFormat.samples_rate ∧
      vOk.get_samples_format = okFormat.data_type ∧
      vOk.get_channels = okFormat.channels.length % 2 ^ 16 ∧
      vOk.get_channels = okFormat.channels.length := by
  have h := voice_format_fixed_amended okEndpoint okFormat theLoop vOk sOk rfl
  exact ⟨h.1, h.2.1, h.2.2.1, h.2.2.2.1, h.2.2.2.2.1, h.2.2.2.2.2.1,
         h.2.2.2.2.2.2 (by decide)⟩

/-- C5: `CreationError` has exactly the two variants `DeviceNotAvailable` and
`FormatNotSupported`; `Voice::new` returns the former when the endpoint has
disappeared and the latter when the backend rejects the format, and on
success the voice holds exactly the requested format — never a silently
substituted one. -/
theorem creation_failure_modes (endpoint : Endpoint) (format : Format)
    (event_loop : EventLoop) :
    (∀ err : CreationError,
        err = .DeviceNotAvailable ∨ err = .FormatNotSupported) ∧
      (endpoint.inner.available = false →
        Voice.new endpoint format event_loop = .error .DeviceNotAvailable) ∧
      (endpoint.inner.available = true →
        ¬(format ∈ endpoint.inner.formats ∧ FormatValid format) →
        Voice.new endpoint format event_loop = .error .FormatNotSupported) ∧
      (∀ v s, Voice.new endpoint format event_loop = .ok (v, s) →
        v.format = format) := by
  refine ⟨fun err => by cases err <;> simp, fun ha => ?_, fun ha hrej => ?_,
          fun v s h => ?_⟩
  · simp [Voice.new, ImplVoice.new, ha]
  · simp [Voice.new, ImplVoice.new, ha, hrej]
  · obtain ⟨hv, _⟩ := voiceNew_ok h
    subst hv
    rfl

/-- Witness for C5: a vanished device fails with `DeviceNotAvailable`; a live
device rejects the invariant-violating format with `FormatNotSupported`. -/
theorem creation_failure_modes_witness :
    Voice.new deadEndpoint okFormat theLoop = .error .DeviceNotAvailable ∧
      Voice.new okEndpoint badFormat theLoop = .error .FormatNotSupported :=
  ⟨(creation_failure_modes deadEndpoint okFormat theLoop).2.1 rfl,
   (creation_failure_modes okEndpoint badFormat theLoop).2.2.1 rfl (by decide)⟩

/-- C7: the buffers one voice's stream delivers carry strictly increasing
fill-order tags (strict fill-chronological order); and no ordering guarantee
holds across voices on one loop — two schedules of the same two voices give
each voice the same per-voice delivery sequence yet different global
interleavings. -/
theorem per_voice_order_no_cross_guarantee :
    (∀ (s : SamplesStream) (n : Nat),
        List.Chain' (· < ·)
          ((s.delivered n).filterMap UnknownTypeBuffer.seq)) ∧
      ∃ (s1 s2 : SamplesStream) (a b : List Bool),
        ((interleavePolls a s1 s2).filterMap fun p =>
            if p.1 then some p.2 else none)
          = ((interleavePolls b s1 s2).filterMap fun p =>
              if p.1 then some p.2 else none) ∧
        ((interleavePolls a s1 s2).filterMap fun p =>
            if p.1 then none else some p.2)
          = ((interleavePolls b s1 s2).filterMap fun p =>
              if p.1 then none else some p.2) ∧
        (interleavePolls a s1 s2).map Prod.fst
          ≠ (interleavePolls b s1 s2).map Prod.fst := by
  constructor
  · intro s n
    rw [delivered_eq_spec, deliveredSpec_seqs]
    exact (List.pairwise_lt_range' _ _).chain'
  · exact ⟨⟨⟨.U16, [1], 0⟩⟩, ⟨⟨.I16, [1], 0⟩⟩, [true, false], [false, true],
           by decide, by decide, by decide⟩

/-- Witness for C7: the concrete stream's delivered fill-order tags over
three polls form a strictly increasing chain. -/
theorem per_voice_order_witness :
    List.Chain' (· < ·) ((sOk.delivered 3).filterMap UnknownTypeBuffer.seq) :=
  per_voice_order_no_cross_guarantee.1 sOk 3

/-- C8: within any number of polls, a stream obtained from `Voice::new` never
yields a stream error, and every delivered buffer's length is positive and at
most the maximum of all previously observed lengths for that voice. -/
theorem delivered_lengths_bounded (endpoint : Endpoint) (format : Format)
    (event_loop : EventLoop) (v : Voice) (s : SamplesStream)
    (h : Voice.new endpoint format event_loop = .ok (v, s)) (n : Nat) :
    (∀ e : Unit, PollResult.err e ∉ s.pollN n) ∧
      ∀ i l, (s.deliveredLens n)[i]? = some l →
        0 < l ∧ (0 < i → l ≤ ((s.deliveredLens n).take i).foldr max 0) := by
  obtain ⟨_, hs, _⟩ := voiceNew_ok h
  subst hs
  refine ⟨fun e => pollN_no_err n _ e, fun i l hl => ?_⟩
  have hlens :
      SamplesStream.deliveredLens
          ⟨⟨format.data_type, mkLens endpoint.inner.cap endpoint.inner.avail, 0⟩⟩ n
        = (mkLens endpoint.inner.cap endpoint.inner.avail).take n := by
    rw [SamplesStream.deliveredLens, delivered_eq_spec, deliveredSpec_lens]
  rw [hlens] at hl ⊢
  exact take_mkLens_bounds _ _ n i l hl

/-- Witness for C8: the concrete voice's third delivered buffer has length 4,
positive and no larger than the maximum (4) seen before it. -/
theorem delivered_lengths_bounded_witness :
    PollResult.err () ∉ sOk.pollN 3 ∧
      (0 < 4 ∧ 4 ≤ ((sOk.deliveredLens 3).take 2).foldr max 0) :=
  ⟨(delivered_lengths_bounded okEndpoint okFormat theLoop vOk sOk rfl 3).1 (),
   ((delivered_lengths_bounded okEndpoint okFormat theLoop vOk sOk rfl 3).2
       2 4 (by decide)).1,
   ((delivered_lengths_bounded okEndpoint okFormat theLoop vOk sOk rfl 3).2
       2 4 (by decide)).2 (by decide)⟩

/-- C9: every Format the system hands out satisfies the invariant (non-empty
channel list, positive rate): all formats yielded by a successful
`get_supported_formats_list`, and the format held by every successfully
constructed voice. -/
theorem format_invariant_holds :
    (∀ (e : Endpoint) (fs : List Format),
        e.get_supported_formats_list = .ok fs → ∀ f ∈ fs, FormatValid f) ∧
      ∀ (endpoint : Endpoint) (format : Format) (event_loop : EventLoop)
        (v : Voice) (s : SamplesStream),
        Voice.new endpoint format event_loop = .ok (v, s) →
          FormatValid v.format := by
  constructor
  · intro e fs h f hf
    simp only [Endpoint.get_supported_formats_list,
               ImplEndpoint.get_supported_formats_list] at h
    by_cases ha : e.inner.available
    · rw [if_pos ha] at h
      simp only [Except.ok.injEq] at h
      subst h
      exact of_decide_eq_true (List.mem_filter.1 hf).2
    · rw [if_neg ha] at h
      simp at h
  · intro endpoint format event_loop v s h
    obtain ⟨hv, _, _, _, hval⟩ := voiceNew_ok h
    subst hv
    exact hval

/-- Witness for C9: the advertised stereo format and the concrete voice's
format both satisfy the invariant. -/
theorem format_invariant_holds_witness :
    FormatValid okFormat ∧ FormatValid vOk.format :=
  ⟨format_invariant_holds.1 okEndpoint [okFormat] rfl okFormat (by decide),
   format_invariant_holds.2 okEndpoint okFormat theLoop vOk sOk rfl⟩

end Claims

end Cpal
